import Mathlib

/-!
Verification development for the stock-predictor page: a shallow embedding of
its data pipeline (CSV parsing and validation, normalization and windowing,
upload handling, and the training orchestration of both the worker revision
and the main-thread revision), with theorems settling the specified claims.

Prices are modelled as exact rationals; host library functions (JavaScript's
`parseFloat`, `Date` parsing, `JSON.parse`, `Array.prototype.sort`) are
modelled by explicit Lean functions noted as such at their definitions.
-/

set_option maxRecDepth 100000

/-! ## OHLC values and scaling (predictor.js 66-82, part_000 38-54, part_001 21-37) -/

/-- One open/high/low/close price quadruple, as consumed by `scaleDown` and
produced by `scaleUp` (the `date` field of a data row is ignored by both). -/
structure Ohlc where
  open_ : ℚ
  high : ℚ
  low : ℚ
  close : ℚ
deriving DecidableEq

/-- `scaleDown` of part_000: divide each field by the session scale
(`window.maxPrice`), passed here explicitly. -/
def scaleDown (maxPrice : ℚ) (step : Ohlc) : Ohlc :=
  { open_ := step.open_ / maxPrice
    high := step.high / maxPrice
    low := step.low / maxPrice
    close := step.close / maxPrice }

/-- `scaleUp` of part_000: multiply each field by the session scale. -/
def scaleUp (maxPrice : ℚ) (step : Ohlc) : Ohlc :=
  { open_ := step.open_ * maxPrice
    high := step.high * maxPrice
    low := step.low * maxPrice
    close := step.close * maxPrice }

/-- `scaleDown` of predictor.js and the worker: fixed constant 138. -/
def scaleDown138 (step : Ohlc) : Ohlc :=
  { open_ := step.open_ / 138
    high := step.high / 138
    low := step.low / 138
    close := step.close / 138 }

/-- `scaleUp` of predictor.js and the worker: fixed constant 138. -/
def scaleUp138 (step : Ohlc) : Ohlc :=
  { open_ := step.open_ * 138
    high := step.high * 138
    low := step.low * 138
    close := step.close * 138 }

/-! ## Windowing (predictor.js 85-100, part_000 57-75, part_001 40-52)

The source loop is `for (let i = 0; i < scaledData.length - L; i += S)`,
pushing `scaledData.slice(i, i + L)` when the slice has length `L`.
We embed it with an explicit fuel argument (`xs.length + 1` iterations
always suffice for a positive stride). -/

/-- The body of the windowing loop: current index `i`, remaining fuel. -/
def windowsAux (L S : Nat) (xs : List Ohlc) : Nat → Nat → List (List Ohlc)
  | 0, _ => []
  | fuel + 1, i =>
    if i < xs.length - L then
      (if ((xs.drop i).take L).length = L then [(xs.drop i).take L] else [])
        ++ windowsAux L S xs fuel (i + S)
    else []

/-- The windowing loop over a scaled series: window length `L`, stride `S`. -/
def windows (L S : Nat) (xs : List Ohlc) : List (List Ohlc) :=
  windowsAux L S xs (xs.length + 1) 0

/-- `prepareTrainingData` of predictor.js and the worker: scale by 138,
then non-overlapping windows of length 5 with stride 5. -/
def prepareTrainingData (data : List Ohlc) : List (List Ohlc) :=
  windows 5 5 (data.map scaleDown138)

/-- `prepareTrainingData` of part_000: keep the last 365 points
(`data.slice(-365)`, the suffix of length at most 365), scale by the
session scale, then windows of length 3 with stride 2. -/
def prepareTrainingDataV2 (maxPrice : ℚ) (data : List Ohlc) : List (List Ohlc) :=
  windows 3 2 (((data.reverse.take 365).reverse).map (scaleDown maxPrice))

/-! ## Text utilities

The parser works character by character over `List Char`; `String` appears
only at the `parseCSV` boundary. These model the string operations the
source uses (`trim`, `split`, `toLowerCase`, `replace`). -/

/-- Characters of a string literal. -/
def strLit (s : String) : List Char := s.data

/-- JavaScript `trim`: drop whitespace from both ends. -/
def trimC (l : List Char) : List Char :=
  ((l.dropWhile Char.isWhitespace).reverse.dropWhile Char.isWhitespace).reverse

/-- Accumulator loop of `splitOnC`: current field (reversed) and the fields
already finished (reversed). -/
def splitOnCAux (sep : Char) : List Char → List Char → List (List Char) → List (List Char)
  | [], cur, acc => (cur.reverse :: acc).reverse
  | c :: cs, cur, acc =>
    if c = sep then splitOnCAux sep cs [] (cur.reverse :: acc)
    else splitOnCAux sep cs (c :: cur) acc

/-- JavaScript `split(sep)` for a single-character separator: `"a,,b"`
splits into three fields, the empty text into one empty field. -/
def splitOnC (sep : Char) (l : List Char) : List (List Char) :=
  splitOnCAux sep l [] []

/-- Drop one trailing carriage return, so that splitting on newline models
the source's split on the pattern CR?-LF. -/
def dropCR (l : List Char) : List Char :=
  match l.reverse with
  | '\r' :: rest => rest.reverse
  | _ => l

/-- Split into lines on CR?-LF (predictor.js 105). -/
def splitLines (l : List Char) : List (List Char) :=
  (splitOnC '\n' l).map dropCR

/-- JavaScript `toLowerCase` on the header line. -/
def toLowerL (l : List Char) : List Char := l.map Char.toLower

/-- Strip a leading byte-order mark (predictor.js 104). -/
def stripBom (l : List Char) : List Char :=
  match l with
  | c :: cs => if c = Char.ofNat 0xFEFF then cs else c :: cs
  | [] => []

/-- JavaScript `replace('$', '')`: remove the first dollar sign, if any. -/
def stripDollar : List Char → List Char
  | [] => []
  | c :: cs => if c = '$' then cs else c :: stripDollar cs

/-- Decimal digits of a number, for building the source's message strings. -/
def natChars (n : Nat) : List Char := (Nat.repr n).data

/-- JavaScript `Array.prototype.join('\n')` on the collected warnings. -/
def joinNl : List (List Char) → List Char
  | [] => []
  | [x] => x
  | x :: y :: xs => x ++ '\n' :: joinNl (y :: xs)

/-- `w` occurs contiguously inside `l` (the message "includes" `w`). -/
def occursIn (w l : List Char) : Prop := ∃ s t, l = s ++ w ++ t

/-! ## Host number and date parsing -/

/-- Numeric value of a digit character. -/
def digitVal (c : Char) : Nat := c.toNat - 48

/-- Accumulate a digit list into a number. -/
def digitsToNatAux (acc : Nat) : List Char → Nat
  | [] => acc
  | c :: cs => digitsToNatAux (acc * 10 + digitVal c) cs

/-- Number denoted by a digit list. -/
def digitsToNat (l : List Char) : Nat := digitsToNatAux 0 l

/-- Modelled host function: JavaScript `parseFloat` on the decimal numerals
this pipeline feeds it (an optional integer part, an optional point and
fraction, trailing junk ignored; sign and exponent forms are not used by
the data rows in scope). `none` models NaN. -/
def parsePrice (s : List Char) : Option ℚ :=
  let ip := s.takeWhile Char.isDigit
  let rest := s.dropWhile Char.isDigit
  match rest with
  | '.' :: r2 =>
    let fp := r2.takeWhile Char.isDigit
    if ip.isEmpty && fp.isEmpty then none
    else some ((digitsToNat ip : ℚ) + (digitsToNat fp : ℚ) / (10 : ℚ) ^ fp.length)
  | _ => if ip.isEmpty then none else some ((digitsToNat ip : ℚ))

/-- A calendar date at day resolution. -/
structure DateYMD where
  y : Nat
  m : Nat
  d : Nat
deriving DecidableEq

/-- Modelled host function: JavaScript `new Date(s)` followed by the
`isNaN(getTime())` validity test, restricted to the ISO `YYYY-MM-DD`
form the data rows in scope use. `none` models an invalid date. -/
def parseDate (s : List Char) : Option DateYMD :=
  match s with
  | [y1, y2, y3, y4, h1, m1, m2, h2, d1, d2] =>
    if y1.isDigit && y2.isDigit && y3.isDigit && y4.isDigit && (h1 == '-')
        && m1.isDigit && m2.isDigit && (h2 == '-') && d1.isDigit && d2.isDigit then
      let y := ((digitVal y1 * 10 + digitVal y2) * 10 + digitVal y3) * 10 + digitVal y4
      let m := digitVal m1 * 10 + digitVal m2
      let d := digitVal d1 * 10 + digitVal d2
      if 1 ≤ m ∧ m ≤ 12 ∧ 1 ≤ d ∧ d ≤ 31 then some ⟨y, m, d⟩ else none
    else none
  | _ => none

/-- A key monotone in calendar order, standing in for the epoch
milliseconds the source's sort comparator subtracts. -/
def dateKey (d : DateYMD) : Nat := (d.y * 13 + d.m) * 32 + d.d

/-- Digit character of `n % 10`. -/
def digitChar (n : Nat) : Char := Char.ofNat (48 + n % 10)

/-- Two-digit zero-padded numeral. -/
def pad2 (n : Nat) : List Char := [digitChar (n / 10), digitChar n]

/-- Four-digit zero-padded numeral. -/
def pad4 (n : Nat) : List Char :=
  [digitChar (n / 1000), digitChar (n / 100), digitChar (n / 10), digitChar n]

/-- Modelled host function: `date.toISOString().split('T')[0]` — the ISO
date-only text of a parsed date (predictor.js 166). -/
def isoOfDate (d : DateYMD) : List Char :=
  pad4 d.y ++ '-' :: pad2 d.m ++ '-' :: pad2 d.d

/-! ## Data rows -/

/-- One accepted data row: ISO date text plus the four prices
(predictor.js 165-168). -/
structure Point where
  date : List Char
  open_ : ℚ
  high : ℚ
  low : ℚ
  close : ℚ
deriving DecidableEq

/-- Sort key of a row: the date's key (every stored date is the ISO text of
a valid date, so the fallback 0 is never hit on parser output). -/
def pointKey (p : Point) : Nat := (parseDate p.date).elim 0 dateKey

/-- The sort comparator's order: ascending by date. -/
def keyLe (a b : Point) : Prop := pointKey a ≤ pointKey b

instance : DecidableRel keyLe := fun a b => Nat.decLe (pointKey a) (pointKey b)

instance : IsTotal Point keyLe := ⟨fun a b => Nat.le_total (pointKey a) (pointKey b)⟩

instance : IsTrans Point keyLe := ⟨fun _ _ _ => Nat.le_trans⟩

/-- Modelled host function: `data.sort((a, b) => new Date(a.date) - new
Date(b.date))` (predictor.js 181). `Array.prototype.sort` is required to be
stable, modelled as a stable insertion sort. -/
def sortPoints (l : List Point) : List Point := List.insertionSort keyLe l

/-! ## CSV parser (predictor.js 103-183, part_000 78-177) -/

/-- Column positions found in the header row. -/
structure HeaderIdx where
  count : Nat
  dateIdx : Nat
  openIdx : Nat
  highIdx : Nat
  lowIdx : Nat
  closeIdx : Nat
deriving DecidableEq

/-- JavaScript `indexOf` over the header fields (first occurrence; the
required-columns check has already ensured presence wherever this is
consumed). -/
def idxOf (a : List Char) : List (List Char) → Nat
  | [] => 0
  | b :: bs => if b = a then 0 else idxOf a bs + 1

/-- The five required column names (predictor.js 112). -/
def requiredColumns : List (List Char) :=
  [strLit "date", strLit "open", strLit "high", strLit "low", strLit "close"]

/-- All required columns appear among the header fields. -/
def hasRequiredColumns (hs : List (List Char)) : Bool :=
  requiredColumns.all (fun c => hs.contains c)

/-- Header positions of the required columns (predictor.js 120-124). -/
def mkHdr (hs : List (List Char)) : HeaderIdx :=
  { count := hs.length
    dateIdx := idxOf (strLit "date") hs
    openIdx := idxOf (strLit "open") hs
    highIdx := idxOf (strLit "high") hs
    lowIdx := idxOf (strLit "low") hs
    closeIdx := idxOf (strLit "close") hs }

/-- The `Line ${i + 1}` prefix of every per-line warning. -/
def lineTag (i : Nat) : List Char := strLit "Line " ++ natChars (i + 1)

/-- Outcome of scanning one non-blank data line. -/
inductive RowOutcome
  | ok (p : Point)
  | skip (msg : List Char)
deriving DecidableEq

/-- Scan of one non-blank, trimmed data line at index `i` of the file's
line array (predictor.js 133-168): split on commas and trim; check the
column count; parse the date; parse the four dollar-stripped prices,
rejecting NaN and non-positive values; check the OHLC relationships;
otherwise accept the row with its ISO date. -/
def rowResult (hdr : HeaderIdx) (i : Nat) (line : List Char) : RowOutcome :=
  let values := (splitOnC ',' line).map trimC
  if values.length ≠ hdr.count then
    .skip (lineTag i ++ strLit ": Expected " ++ natChars hdr.count
      ++ strLit " columns, found " ++ natChars values.length)
  else
    let dateStr := values.getD hdr.dateIdx []
    match parseDate dateStr with
    | none => .skip (lineTag i ++ strLit ": Invalid date format \"" ++ dateStr ++ strLit "\"")
    | some d =>
      match parsePrice (stripDollar (values.getD hdr.openIdx [])),
          parsePrice (stripDollar (values.getD hdr.highIdx [])),
          parsePrice (stripDollar (values.getD hdr.lowIdx [])),
          parsePrice (stripDollar (values.getD hdr.closeIdx [])) with
      | some o, some h, some l, some c =>
        if o ≤ 0 ∨ h ≤ 0 ∨ l ≤ 0 ∨ c ≤ 0 then
          .skip (lineTag i ++ strLit ": Invalid OHLC values")
        else if l > h ∨ o > h ∨ c > h ∨ l > o ∨ l > c then
          .skip (lineTag i ++ strLit ": Invalid OHLC relationships")
        else
          .ok { date := isoOfDate d, open_ := o, high := h, low := l, close := c }
      | _, _, _, _ => .skip (lineTag i ++ strLit ": Invalid OHLC values")

/-- The main scan loop (predictor.js 129-169) over `(index, line)` pairs:
blank lines are passed over; every other line yields either an accepted
point or one warning, in file order. -/
def rowScan (hdr : HeaderIdx) : List (Nat × List Char) → List Point × List (List Char)
  | [] => ([], [])
  | x :: rest =>
    if trimC x.2 = [] then rowScan hdr rest
    else
      match rowResult hdr x.1 (trimC x.2), rowScan hdr rest with
      | .ok p, (ps, es) => (p :: ps, es)
      | .skip e, (ps, es) => (ps, e :: es)

/-- The accepted point a scanned line contributes, if any. -/
def rowPoint (hdr : HeaderIdx) (x : Nat × List Char) : Option Point :=
  if trimC x.2 = [] then none
  else
    match rowResult hdr x.1 (trimC x.2) with
    | .ok p => some p
    | .skip _ => none

/-- The warning a scanned line contributes, if any. -/
def rowWarning (hdr : HeaderIdx) (x : Nat × List Char) : Option (List Char) :=
  if trimC x.2 = [] then none
  else
    match rowResult hdr x.1 (trimC x.2) with
    | .ok _ => none
    | .skip e => some e

/-- The parseable positive prices of one raw line, as collected by the
scale-factor pass of part_000 (lines 105-121): split on commas, trim and
strip dollars, read the four indexed fields, keep those that parse and are
positive. A blank line contributes nothing (the source skips it; here it
yields no parseable field). -/
def rowValidPrices (hdr : HeaderIdx) (rawLine : List Char) : List ℚ :=
  let line := trimC rawLine
  if line = [] then []
  else
    let values := (splitOnC ',' line).map (fun v => stripDollar (trimC v))
    let prices := [parsePrice (values.getD hdr.openIdx []),
      parsePrice (values.getD hdr.highIdx []),
      parsePrice (values.getD hdr.lowIdx []),
      parsePrice (values.getD hdr.closeIdx [])]
    (prices.filterMap id).filter (fun p => 0 < p)

/-- One step of the scale-factor pass: a line updates the running maximum
only when all four of its prices are parseable and positive
(`validPrices.length === 4`, part_000 118-120). -/
def rowMaxUpdate (hdr : HeaderIdx) (acc : ℚ) (rawLine : List Char) : ℚ :=
  if (rowValidPrices hdr rawLine).length = 4 then
    (rowValidPrices hdr rawLine).foldl max acc
  else acc

/-- The scale-factor pass of part_000 (lines 103-121): fold the update over
all data lines starting from 0. -/
def maxPriceScan (hdr : HeaderIdx) (lines : List (List Char)) : ℚ :=
  lines.foldl (rowMaxUpdate hdr) 0

/-- Follows the spec's words (§4.1 step 8), for comparison with the code:
"scan all rows once, take parseable positive OHLC values, scale = max over
all of them; if no valid numeric value is found, scale remains 0" — with no
all-four-fields gate. -/
def specScaleFactor (hdr : HeaderIdx) (lines : List (List Char)) : ℚ :=
  lines.foldl (fun acc rawLine => (rowValidPrices hdr rawLine).foldl max acc) 0

/-- The parser's error cases, one constructor per throw site, each carrying
the thrown message text. -/
inductive ParseError
  | malformedFile (msg : List Char)
  | missingColumns (msg : List Char)
  | insufficientData (msg : List Char)
deriving DecidableEq

/-- The parser's success value: the sorted series, the derived scale factor
of part_000, and the non-fatal warnings. -/
structure ParseOk where
  data : List Point
  maxPrice : ℚ
  warnings : List (List Char)
deriving DecidableEq

/-- Message of the under-50 failure (predictor.js 172-174). -/
def insufficientMsg (n : Nat) (errs : List (List Char)) : List Char :=
  strLit "CSV must contain at least 50 valid data points. Found " ++ natChars n ++
    (strLit " valid points." ++
      (if errs.isEmpty then [] else strLit "\n\nErrors found:\n" ++ joinNl errs))

/-- Message of the too-few-lines failure (predictor.js 108). -/
def malformedMsg : List Char := strLit "CSV file must contain headers and at least one data row"

/-- Message of the missing-columns failure (predictor.js 116). -/
def missingMsg : List Char := strLit "CSV must have date, open, high, low, close columns"

/-- Lines of the uploaded text: strip the byte-order mark, trim, split
(predictor.js 104-105). -/
def csvLines (csv : String) : List (List Char) :=
  splitLines (trimC (stripBom csv.data))

/-- Header fields: line 0 lower-cased, split on commas, trimmed
(predictor.js 111). -/
def csvHeaders (csv : String) : List (List Char) :=
  (splitOnC ',' (toLowerL ((csvLines csv).getD 0 []))).map trimC

/-- Column positions for the uploaded text. -/
def csvHdr (csv : String) : HeaderIdx := mkHdr (csvHeaders csv)

/-- The accepted rows of the main scan, in file order (before sorting). -/
def rawPoints (csv : String) : List Point :=
  (rowScan (csvHdr csv) (((csvLines csv).enum).drop 1)).1

/-- The per-line warnings of the main scan, in file order. -/
def rawWarnings (csv : String) : List (List Char) :=
  (rowScan (csvHdr csv) (((csvLines csv).enum).drop 1)).2

/-- `parseCSV` (part_000 78-177; predictor.js 103-183 is identical except
that it omits the scale-factor pass and result field): fail on fewer than
two lines, fail on a missing required column, scan the data lines, fail if
fewer than 50 rows were accepted (the message carrying the count and the
joined warnings), otherwise return the date-sorted rows, the scale factor
and the warnings. -/
def parseCSV (csv : String) : Except ParseError ParseOk :=
  if (csvLines csv).length < 2 then .error (.malformedFile malformedMsg)
  else if hasRequiredColumns (csvHeaders csv) = false then .error (.missingColumns missingMsg)
  else if (rawPoints csv).length < 50 then
    .error (.insufficientData (insufficientMsg (rawPoints csv).length (rawWarnings csv)))
  else
    .ok { data := sortPoints (rawPoints csv)
          maxPrice := maxPriceScan (csvHdr csv) ((csvLines csv).drop 1)
          warnings := rawWarnings csv }

/-- The series a parse delivers (empty on failure). -/
def parsedData (csv : String) : List Point :=
  match parseCSV csv with
  | .ok r => r.data
  | .error _ => []

/-- The parse failed at the under-50 throw site. -/
def isInsufficient : Except ParseError ParseOk → Bool
  | .error (.insufficientData _) => true
  | _ => false

/-- The row count and warning count of a successful parse. -/
def resultCounts : Except ParseError ParseOk → Option (Nat × Nat)
  | .ok r => some (r.data.length, r.warnings.length)
  | .error _ => none

/-- The parse succeeded. -/
def isOkResult : Except ParseError ParseOk → Bool
  | .ok _ => true
  | .error _ => false

/-! ## Concrete inputs used by the concrete facts below -/

/-- A constant OHLC quadruple. -/
def o1 : Ohlc := ⟨1, 1, 1, 1⟩

/-- Header line of the generated CSV files. -/
def headerLine : List Char := strLit "date,open,high,low,close"

/-- A well-formed data row with year `2000 + i` and prices 7, 10, 5, 8. -/
def goodRow (i : Nat) : List Char := natChars (2000 + i) ++ strLit "-01-02,7,10,5,8"

/-- A data row whose high is not numeric. -/
def badRow (i : Nat) : List Char := natChars (2000 + i) ++ strLit "-01-02,7,abc,5,8"

/-- Assemble a CSV text from data rows. -/
def csvOf (rows : List (List Char)) : String :=
  String.mk (headerLine ++ '\n' :: joinNl rows)

/-- 49 well-formed rows. -/
def csv49 : String := csvOf ((List.range 49).map goodRow)

/-- 50 well-formed rows. -/
def csv50ex : String := csvOf ((List.range 50).map goodRow)

/-- 60 well-formed rows with 5 non-numeric-price rows interleaved
(positions 12, 25, 38, 51, 64). -/
def csv65 : String :=
  csvOf ((List.range 65).map (fun i => if i % 13 = 12 then badRow i else goodRow i))

/-- A row whose open, high and low are 9999 but whose close is not numeric:
it contributes parseable positive values, yet fails the all-four gate. -/
def c9row : List Char := strLit "2100-01-02,9999,9999,9999,abc"

/-- A CSV whose data rows are one well-formed row (prices at most 10) and
the partly-numeric row. -/
def c9csv : String := csvOf [goodRow 0, c9row]

/-- The standard header positions of the generated files. -/
def hdr5 : HeaderIdx := ⟨5, 0, 1, 2, 3, 4⟩

/-! ## Upload handling (predictor.js 212-241, part_000 180-207)

A successful CSV parse installs the parsed series as `currentStockData`; a
`.json` file is handed to the host's `JSON.parse` and its result installed
with no further validation; any failure (including an unsupported
extension) resets the state to "no dataset". -/

/-- An uploaded file, after the host has read its text: a CSV text, the
array a JSON text structurally deserializes to (modelled host function:
`JSON.parse`), or a file with another extension. -/
inductive Upload
  | csvFile (text : String)
  | jsonFile (points : List Point)
  | otherFile

/-- The series installed as `currentStockData` by `handleFileUpload`
(`none` when the upload errors and the state is reset). -/
def handleFileUpload : Upload → Option (List Point)
  | .csvFile text =>
    match parseCSV text with
    | .ok r => some r.data
    | .error _ => none
  | .jsonFile pts => some pts
  | .otherFile => none

/-! ## The worker's train message (part_001 64-109)

The engine calls are external: `net.train`'s outcome and `net.run`'s
outcome enter as parameters (an exception carries its message text).
The model returns the list of terminal messages posted; progress
messages are out of scope of the claims below. -/

/-- Terminal messages the worker posts for one `train` request. -/
inductive WorkerMsg
  | complete (prediction : Ohlc)
  | error (message : List Char)
deriving DecidableEq

/-- Message of the worker's not-initialized throw (part_001 67). -/
def workerNotInitMsg : List Char := strLit "Neural network not initialized"

/-- The `try` body of the worker's train case: fail if the net is not
initialized, prepare the training data, run the external `train`, run the
external `run` on the last sequence (`trainingData[trainingData.length -
1]`, which is absent when no sequences were generated), and denormalize
with the fixed scale. -/
def workerTrainBody (netInit : Bool) (data : List Ohlc)
    (trainOutcome : Except (List Char) Unit)
    (runOutcome : Option (List Ohlc) → Except (List Char) Ohlc) :
    Except (List Char) Ohlc :=
  if netInit = false then .error workerNotInitMsg
  else
    let trainingData := prepareTrainingData data
    match trainOutcome with
    | .error m => .error m
    | .ok _ =>
      match runOutcome trainingData.getLast? with
      | .error m => .error m
      | .ok pred => .ok (scaleUp138 pred)

/-- The worker's train case: the `try`/`catch` posts exactly the messages
this returns — one `complete` on success, one `error` on any throw. -/
def workerTrainCase (netInit : Bool) (data : List Ohlc)
    (trainOutcome : Except (List Char) Unit)
    (runOutcome : Option (List Ohlc) → Except (List Char) Ohlc) :
    List WorkerMsg :=
  match workerTrainBody netInit data trainOutcome runOutcome with
  | .ok p => [.complete p]
  | .error m => [.error m]

/-! ## The main-thread orchestrator `trainAndPredict` (part_000 210-320) -/

/-- What one invocation of `trainAndPredict` surfaces: a precondition
alert (before any UI lock), a prediction handed to `updateUI`, or a
training failure written to the error display. -/
inductive TapOutcome
  | alert (msg : List Char)
  | success (prediction : Ohlc)
  | failure (msg : List Char)
deriving DecidableEq

/-- Result of one invocation: whether the start control was locked and the
overlay shown (the transition to Running, part_000 232-245), and the
surfaced outcome. -/
structure TapResult where
  locked : Bool
  outcome : TapOutcome
deriving DecidableEq

/-- Alert of the missing-net precondition (part_000 214). -/
def notInitAlert : List Char :=
  strLit "Neural network not initialized. Brain.js may not have loaded correctly."

/-- Alert of the missing-data precondition (part_000 221). -/
def uploadAlert : List Char := strLit "Please upload data first"

/-- Message of the empty-training-data throw (part_000 261). -/
def noSeqMsg : List Char := strLit "No valid training sequences generated"

/-- The `try` body of `trainAndPredict` (part_000 257-307): prepare the
sequences, fail if none, run the external `train`, run the external `run`
on the last sequence and denormalize with the session scale. -/
def tapBody (maxPrice : ℚ) (data : List Ohlc)
    (trainOutcome : Except (List Char) Unit)
    (runOutcome : Option (List Ohlc) → Except (List Char) Ohlc) :
    Except (List Char) Ohlc :=
  let trainingData := prepareTrainingDataV2 maxPrice data
  if trainingData.length = 0 then .error noSeqMsg
  else
    match trainOutcome with
    | .error m => .error m
    | .ok _ =>
      match runOutcome trainingData.getLast? with
      | .error m => .error m
      | .ok pred => .ok (scaleUp maxPrice pred)

/-- `trainAndPredict` (part_000 210-320): the two precondition checks
return with an alert before the overlay/lock; past them the UI is locked
and the `try`/`catch` yields one success or one failure. -/
def trainAndPredict (netInit : Bool) (series : Option (List Ohlc)) (maxPrice : ℚ)
    (trainOutcome : Except (List Char) Unit)
    (runOutcome : Option (List Ohlc) → Except (List Char) Ohlc) :
    TapResult :=
  if netInit = false then { locked := false, outcome := .alert notInitAlert }
  else
    match series with
    | none => { locked := false, outcome := .alert uploadAlert }
    | some data =>
      match tapBody maxPrice data trainOutcome runOutcome with
      | .ok p => { locked := true, outcome := .success p }
      | .error m => { locked := true, outcome := .failure m }

/-! ## Spec-side windowing, for comparison with the code -/

/-- Follows the claim C2 wording, for comparison with the code: emit the
window `[i, i + L)` whenever `i + L ≤ length`, advancing by `S`. -/
def specWindowsAux (L S : Nat) (xs : List Ohlc) : Nat → Nat → List (List Ohlc)
  | 0, _ => []
  | fuel + 1, i =>
    if i + L ≤ xs.length then (xs.drop i).take L :: specWindowsAux L S xs fuel (i + S)
    else []

/-- The claim-C2 windowing policy with fuel filled in. -/
def specWindows (L S : Nat) (xs : List Ohlc) : List (List Ohlc) :=
  specWindowsAux L S xs (xs.length + 1) 0

/-- A 10-element series with distinct prices (an exact multiple of the
window length 5). -/
def xs10 : List Ohlc := (List.range 10).map (fun i => ⟨(i : ℚ) + 1, (i : ℚ) + 2, (i : ℚ) + 1, (i : ℚ) + 2⟩)

/-- A one-element point list for the JSON-path counterexample. -/
def pt0 : Point := ⟨strLit "2020-01-02", 7, 10, 5, 8⟩

/-! ## Lemmas: windowing characterization -/

/-- Counting step: one loop iteration consumes one of the remaining window
starts. -/
theorem cntStep {S m i : Nat} (hS : 0 < S) (hi : i < m) :
    (m - i + (S - 1)) / S = (m - (i + S) + (S - 1)) / S + 1 := by
  have h2 : m - (i + S) = m - i - S := by omega
  rw [h2]
  set t := m - i with ht
  have h1 : 1 ≤ t := by omega
  have l1 : t + (S - 1) = t - 1 + S := by omega
  rw [l1, Nat.add_div_right _ hS]
  by_cases hts : t ≤ S
  · have e0 : t - S = 0 := by omega
    rw [e0]
    rw [Nat.div_eq_of_lt (show 0 + (S - 1) < S by omega)]
    rw [Nat.div_eq_of_lt (show t - 1 < S by omega)]
  · have h3 : t - S + (S - 1) = t - S - 1 + S := by omega
    rw [h3, Nat.add_div_right _ hS]
    have h4 : t - 1 = t - S - 1 + S := by omega
    rw [h4, Nat.add_div_right _ hS]

/-- The loop body, characterized: from index `i` with enough fuel, the loop
emits one full-length slice per remaining window start. -/
theorem windowsAux_eq (L S : Nat) (hS : 0 < S) (xs : List Ohlc) :
    ∀ fuel i, (xs.length - L - i + (S - 1)) / S ≤ fuel →
      windowsAux L S xs fuel i =
        (List.range ((xs.length - L - i + (S - 1)) / S)).map
          (fun k => (xs.drop (i + S * k)).take L) := by
  intro fuel
  induction fuel with
  | zero =>
    intro i h
    have h0 : (xs.length - L - i + (S - 1)) / S = 0 := Nat.le_zero.mp h
    rw [h0]
    rfl
  | succ fuel ih =>
    intro i h
    by_cases hi : i < xs.length - L
    · have hlen : ((xs.drop i).take L).length = L := by
        rw [List.length_take, List.length_drop]
        omega
      have hcnt : (xs.length - L - i + (S - 1)) / S
          = (xs.length - L - (i + S) + (S - 1)) / S + 1 := cntStep hS hi
      rw [show windowsAux L S xs (fuel + 1) i
            = (if i < xs.length - L then
                (if ((xs.drop i).take L).length = L then [(xs.drop i).take L] else [])
                  ++ windowsAux L S xs fuel (i + S)
              else []) from rfl]
      rw [if_pos hi, if_pos hlen]
      rw [ih (i + S) (by omega)]
      rw [hcnt, List.range_succ_eq_map]
      rw [List.map_cons, List.map_map, List.singleton_append]
      congr 1
      apply List.map_congr_left
      intro k _
      show (xs.drop (i + S + S * k)).take L = (xs.drop (i + S * (k + 1))).take L
      have hidx : i + S + S * k = i + S * (k + 1) := by ring
      rw [hidx]
    · have h0 : xs.length - L - i = 0 := by omega
      rw [show windowsAux L S xs (fuel + 1) i
            = (if i < xs.length - L then
                (if ((xs.drop i).take L).length = L then [(xs.drop i).take L] else [])
                  ++ windowsAux L S xs fuel (i + S)
              else []) from rfl]
      rw [if_neg hi, h0]
      rw [Nat.div_eq_of_lt (show 0 + (S - 1) < S by omega)]
      rfl

/-- The windowing loop emits exactly the slices `[i, i + L)` for the
multiples `i` of the stride with `i + L` strictly below the length. -/
theorem windows_eq (L S : Nat) (hS : 0 < S) (xs : List Ohlc) :
    windows L S xs =
      (List.range ((xs.length - L + (S - 1)) / S)).map (fun k => (xs.drop (S * k)).take L) := by
  have hb1 : (xs.length - L + (S - 1)) / S ≤ xs.length := by
    have hmono : xs.length - L + (S - 1) ≤ (S - 1) + S * (xs.length - L) := by
      have : xs.length - L ≤ S * (xs.length - L) := Nat.le_mul_of_pos_left _ hS
      omega
    calc (xs.length - L + (S - 1)) / S
        ≤ ((S - 1) + S * (xs.length - L)) / S := Nat.div_le_div_right hmono
      _ = (S - 1) / S + (xs.length - L) := Nat.add_mul_div_left _ _ hS
      _ ≤ xs.length := by
          rw [Nat.div_eq_of_lt (show S - 1 < S by omega)]
          omega
  have hb : (xs.length - L - 0 + (S - 1)) / S ≤ xs.length + 1 := by
    rw [Nat.sub_zero]
    omega
  rw [windows, windowsAux_eq L S hS xs (xs.length + 1) 0 hb]
  rw [Nat.sub_zero]
  apply List.map_congr_left
  intro k _
  rw [Nat.zero_add]

/-! ## Lemmas: stable sorting -/

/-- Inserting a point does not change which rows carry a given date, nor
their order: rows the insertion passes over have strictly smaller keys. -/
theorem filter_key_orderedInsert (k : Nat) (x : Point) (l : List Point) :
    (List.orderedInsert keyLe x l).filter (fun p => pointKey p == k)
      = (x :: l).filter (fun p => pointKey p == k) := by
  induction l with
  | nil => rfl
  | cons y ys ih =>
    by_cases hxy : keyLe x y
    · rw [List.orderedInsert, if_pos hxy]
    · rw [List.orderedInsert, if_neg hxy]
      have hlt : pointKey y < pointKey x := by
        unfold keyLe at hxy
        omega
      by_cases hx : pointKey x = k
      · have hy : ¬ (pointKey y = k) := by omega
        simp only [List.filter_cons, ih]
        simp [hx, hy]
      · simp only [List.filter_cons, ih]
        simp [hx]

/-- The sort is stable: filtering the sorted rows to one date key gives
exactly the rows of that key in their original order. -/
theorem filter_key_sortPoints (k : Nat) (l : List Point) :
    (sortPoints l).filter (fun p => pointKey p == k)
      = l.filter (fun p => pointKey p == k) := by
  induction l with
  | nil => rfl
  | cons x xs ih =>
    rw [sortPoints, List.insertionSort, filter_key_orderedInsert]
    rw [List.filter_cons, List.filter_cons]
    rw [show List.insertionSort keyLe xs = sortPoints xs from rfl, ih]

/-- Sorting preserves the number of rows. -/
theorem sortPoints_length (l : List Point) : (sortPoints l).length = l.length :=
  (List.perm_insertionSort keyLe l).length_eq

/-! ## Lemmas: folded maxima -/

/-- A fold of `max` never goes below its start. -/
theorem le_foldl_max (l : List ℚ) : ∀ acc : ℚ, acc ≤ l.foldl max acc := by
  induction l with
  | nil => intro acc; exact le_refl acc
  | cons x xs ih =>
    intro acc
    rw [List.foldl_cons]
    exact le_trans (le_max_left acc x) (ih (max acc x))

/-- A fold of `max` dominates every listed value. -/
theorem mem_le_foldl_max (l : List ℚ) : ∀ (acc p : ℚ), p ∈ l → p ≤ l.foldl max acc := by
  induction l with
  | nil => intro _ _ hp; cases hp
  | cons x xs ih =>
    intro acc p hp
    rw [List.foldl_cons]
    rcases List.mem_cons.mp hp with h | h
    · subst h
      exact le_trans (le_max_right acc p) (le_foldl_max xs (max acc p))
    · exact ih (max acc x) p h

/-- A fold of `max` is its start or one of the listed values. -/
theorem foldl_max_eq_or_mem (l : List ℚ) : ∀ acc : ℚ,
    l.foldl max acc = acc ∨ l.foldl max acc ∈ l := by
  induction l with
  | nil => intro _; left; rfl
  | cons x xs ih =>
    intro acc
    rw [List.foldl_cons]
    rcases ih (max acc x) with h | h
    · rcases max_choice acc x with h2 | h2
      · left; rw [h, h2]
      · right; rw [h, h2]; exact List.mem_cons_self x xs
    · right; exact List.mem_cons_of_mem x h

/-- One scan step never lowers the running maximum. -/
theorem rowMaxUpdate_le (hdr : HeaderIdx) (acc : ℚ) (raw : List Char) :
    acc ≤ rowMaxUpdate hdr acc raw := by
  unfold rowMaxUpdate
  by_cases h : (rowValidPrices hdr raw).length = 4
  · rw [if_pos h]; exact le_foldl_max _ _
  · rw [if_neg h]

/-- The scale-factor scan never goes below its start. -/
theorem le_scanFold (hdr : HeaderIdx) (lines : List (List Char)) :
    ∀ acc : ℚ, acc ≤ lines.foldl (rowMaxUpdate hdr) acc := by
  induction lines with
  | nil => intro _; exact le_refl _
  | cons x xs ih =>
    intro acc
    rw [List.foldl_cons]
    exact le_trans (rowMaxUpdate_le hdr acc x) (ih _)

/-- The scan dominates every price of every all-four-valid row. -/
theorem scanFold_ge_prices (hdr : HeaderIdx) (lines : List (List Char)) :
    ∀ (acc : ℚ) (raw : List Char), raw ∈ lines →
      (rowValidPrices hdr raw).length = 4 →
      ∀ p ∈ rowValidPrices hdr raw, p ≤ lines.foldl (rowMaxUpdate hdr) acc := by
  induction lines with
  | nil => intro _ _ h; cases h
  | cons x xs ih =>
    intro acc raw hm h4 p hp
    rw [List.foldl_cons]
    rcases List.mem_cons.mp hm with he | he
    · subst he
      refine le_trans ?_ (le_scanFold hdr xs _)
      unfold rowMaxUpdate
      rw [if_pos h4]
      exact mem_le_foldl_max _ _ _ hp
    · exact ih _ raw he h4 p hp

/-- The scan result is 0 (its start) or a price of some all-four-valid
row. -/
theorem scanFold_eq_or_mem (hdr : HeaderIdx) (lines : List (List Char)) :
    ∀ acc : ℚ,
      lines.foldl (rowMaxUpdate hdr) acc = acc
      ∨ ∃ raw, raw ∈ lines ∧ (rowValidPrices hdr raw).length = 4
          ∧ lines.foldl (rowMaxUpdate hdr) acc ∈ rowValidPrices hdr raw := by
  induction lines with
  | nil => intro _; left; rfl
  | cons x xs ih =>
    intro acc
    rw [List.foldl_cons]
    rcases ih (rowMaxUpdate hdr acc x) with h | ⟨raw, hm, h4, hmem⟩
    · rw [h]
      unfold rowMaxUpdate
      by_cases h4 : (rowValidPrices hdr x).length = 4
      · rw [if_pos h4]
        rcases foldl_max_eq_or_mem _ acc with h2 | h2
        · left; exact h2
        · right; exact ⟨x, List.mem_cons_self x xs, h4, h2⟩
      · rw [if_neg h4]; left; rfl
    · right; exact ⟨raw, List.mem_cons_of_mem x hm, h4, hmem⟩

/-! ## Lemmas: message containment -/

/-- Every collected warning occurs inside the joined warning text. -/
theorem occursIn_joinNl {w : List Char} :
    ∀ {l : List (List Char)}, w ∈ l → occursIn w (joinNl l) := by
  intro l
  induction l with
  | nil => intro h; cases h
  | cons x xs ih =>
    intro h
    rcases List.mem_cons.mp h with he | he
    · subst he
      cases xs with
      | nil => exact ⟨[], [], by simp [joinNl]⟩
      | cons y ys => exact ⟨[], '\n' :: joinNl (y :: ys), by simp [joinNl]⟩
    · cases xs with
      | nil => cases he
      | cons y ys =>
        rcases ih he with ⟨s, t, hst⟩
        exact ⟨x ++ '\n' :: s, t, by simp [joinNl, hst]⟩

/-- The under-50 message carries the count of accepted rows. -/
theorem count_occurs (n : Nat) (errs : List (List Char)) :
    occursIn (natChars n) (insufficientMsg n errs) :=
  ⟨strLit "CSV must contain at least 50 valid data points. Found ",
    strLit " valid points."
      ++ (if errs.isEmpty then [] else strLit "\n\nErrors found:\n" ++ joinNl errs),
    by rw [insufficientMsg]⟩

/-- The under-50 message carries every collected warning. -/
theorem warning_occurs (n : Nat) (errs : List (List Char)) (w : List Char) (hw : w ∈ errs) :
    occursIn w (insufficientMsg n errs) := by
  rcases occursIn_joinNl hw with ⟨s, t, hst⟩
  have hne : errs.isEmpty = false := by
    cases errs with
    | nil => cases hw
    | cons a as => rfl
  refine ⟨strLit "CSV must contain at least 50 valid data points. Found " ++ natChars n
      ++ strLit " valid points." ++ strLit "\n\nErrors found:\n" ++ s, t, ?_⟩
  rw [insufficientMsg, hne]
  simp [hst, List.append_assoc]

/-! ## Lemmas: parser inversion -/

/-- A successful parse returns the sorted scan output, and only past the
50-row floor. -/
theorem parseCSV_ok_inv {csv : String} {r : ParseOk} (h : parseCSV csv = .ok r) :
    r.data = sortPoints (rawPoints csv) ∧ 50 ≤ (rawPoints csv).length := by
  unfold parseCSV at h
  by_cases h1 : (csvLines csv).length < 2
  · rw [if_pos h1] at h; exact absurd h (by simp)
  · rw [if_neg h1] at h
    by_cases h2 : hasRequiredColumns (csvHeaders csv) = false
    · rw [if_pos h2] at h; exact absurd h (by simp)
    · rw [if_neg h2] at h
      by_cases h3 : (rawPoints csv).length < 50
      · rw [if_pos h3] at h; exact absurd h (by simp)
      · rw [if_neg h3] at h
        have heq := Except.ok.inj h
        exact ⟨by rw [← heq], by omega⟩

/-! ## Claims -/

/-- Claim C1: for a series of length 100, the windowing function
`prepareTrainingData` (window length 5, stride 5) yields exactly 19
training sequences, each of length 5, the k-th consisting of the
normalized series elements at indices 5k up to (but excluding) 5k + 5,
for every k below 19. -/
theorem claim_C1_windowing (data : List Ohlc) (h : data.length = 100) :
    (prepareTrainingData data).length = 19
    ∧ (∀ s ∈ prepareTrainingData data, s.length = 5)
    ∧ ∀ k, k < 19 →
        (prepareTrainingData data)[k]? = some (((data.map scaleDown138).drop (5 * k)).take 5) := by
  have hlen : (data.map scaleDown138).length = 100 := by rw [List.length_map, h]
  have hw := windows_eq 5 5 (by norm_num) (data.map scaleDown138)
  rw [hlen] at hw
  norm_num at hw
  refine ⟨?_, ?_, ?_⟩
  · rw [prepareTrainingData, hw]
    simp
  · intro s hs
    rw [prepareTrainingData, hw] at hs
    rcases List.mem_map.mp hs with ⟨k, hk, hks⟩
    rw [← hks, List.length_take, List.length_drop, hlen]
    have hk19 : k < 19 := List.mem_range.mp hk
    omega
  · intro k hk
    rw [prepareTrainingData, hw, List.getElem?_map, List.getElem?_range hk]
    rfl

/-- Witness for C1 at a concrete 100-point series. -/
theorem claim_C1_windowing_witness :
    (List.replicate 100 o1).length = 100
    ∧ (prepareTrainingData (List.replicate 100 o1)).length = 19 :=
  ⟨by decide, (claim_C1_windowing (List.replicate 100 o1) (by decide)).1⟩

/-- Claim C2 (amended): the windowing loop emits the window `[i, i + L)`
for every starting index `i` reached from 0 in steps of `S` such that
`i + L` is strictly below the series length `n` (the source's guard is
`i < n - L`); consequently, when `n` is an exact multiple of `L` and
`S = L`, the final window ending at index `n` is NOT emitted and exactly
`n / L - 1` windows result. -/
theorem claim_C2_window_bound (L S : Nat) (xs : List Ohlc) (hS : 0 < S) :
    (∀ data : List Ohlc, prepareTrainingData data = windows 5 5 (data.map scaleDown138))
    ∧ windows L S xs
        = (List.range ((xs.length - L + (S - 1)) / S)).map (fun k => (xs.drop (S * k)).take L)
    ∧ (S = L → xs.length % L = 0 → (windows L S xs).length = xs.length / L - 1) := by
  refine ⟨fun _ => rfl, windows_eq L S hS xs, ?_⟩
  intro hSL hmod
  subst hSL
  rw [windows_eq S S hS xs]
  simp only [List.length_map, List.length_range]
  have hdvd : S ∣ xs.length := Nat.dvd_of_mod_eq_zero hmod
  obtain ⟨q, hq⟩ := hdvd
  rw [hq, Nat.mul_div_cancel_left q hS]
  cases q with
  | zero =>
    rw [Nat.mul_zero]
    rw [Nat.div_eq_of_lt (show 0 - S + (S - 1) < S by omega)]
  | succ q =>
    have h1 : S * (q + 1) - S + (S - 1) = S - 1 + S * q := by
      rw [Nat.mul_succ]
      omega
    rw [h1, Nat.add_mul_div_left _ _ hS, Nat.div_eq_of_lt (show S - 1 < S by omega)]
    omega

/-- Witness for C2 (amended) at window length 5, stride 5, a 10-point
series. -/
theorem claim_C2_window_bound_witness :
    windows 5 5 xs10
      = (List.range ((xs10.length - 5 + (5 - 1)) / 5)).map (fun k => (xs10.drop (5 * k)).take 5)
    ∧ (windows 5 5 xs10).length = xs10.length / 5 - 1 :=
  ⟨(claim_C2_window_bound 5 5 xs10 (by norm_num)).2.1,
   (claim_C2_window_bound 5 5 xs10 (by norm_num)).2.2 rfl (by decide)⟩

/-- Claim C2 counterexample: on a 10-point series with window length 5 and
stride 5, the claimed policy (emit whenever `i + L ≤ n`) yields two windows
— including the final window ending at index 10 — but the code emits
exactly one, so the claimed policy differs from the code. -/
theorem claim_C2_counterexample :
    (prepareTrainingData xs10).length = 1
    ∧ (specWindows 5 5 (xs10.map scaleDown138)).length = 2
    ∧ prepareTrainingData xs10 ≠ specWindows 5 5 (xs10.map scaleDown138) := by
  refine ⟨by decide, by decide, fun h => ?_⟩
  have h1 : (prepareTrainingData xs10).length = 1 := by decide
  have h2 : (specWindows 5 5 (xs10.map scaleDown138)).length = 2 := by decide
  rw [h] at h1
  omega

/-- Claim C3: for every CSV input that reaches the data scan (at least two
lines, required columns present), the parse fails with the insufficient-
data error exactly when fewer than 50 rows were accepted; the failure
message carries the accepted-row count and every collected per-line
warning. In particular the concrete 49-row input fails so and the concrete
50-row input succeeds. -/
theorem claim_C3_insufficient_floor :
    (∀ csv : String, 2 ≤ (csvLines csv).length → hasRequiredColumns (csvHeaders csv) = true →
      ((isInsufficient (parseCSV csv) = true ↔ (rawPoints csv).length < 50)
        ∧ ((rawPoints csv).length < 50 →
            parseCSV csv = .error (.insufficientData
              (insufficientMsg (rawPoints csv).length (rawWarnings csv)))
            ∧ occursIn (natChars (rawPoints csv).length)
                (insufficientMsg (rawPoints csv).length (rawWarnings csv))
            ∧ ∀ w ∈ rawWarnings csv,
                occursIn w (insufficientMsg (rawPoints csv).length (rawWarnings csv)))))
    ∧ isInsufficient (parseCSV csv49) = true
    ∧ isOkResult (parseCSV csv50ex) = true := by
  refine ⟨?_, by decide, by decide⟩
  intro csv h1 h2
  have h1' : ¬ ((csvLines csv).length < 2) := by omega
  have h2' : ¬ (hasRequiredColumns (csvHeaders csv) = false) := by simp [h2]
  constructor
  · constructor
    · intro hins
      by_contra hc
      unfold parseCSV at hins
      rw [if_neg h1', if_neg h2', if_neg hc] at hins
      simp [isInsufficient] at hins
    · intro hlt
      unfold parseCSV
      rw [if_neg h1', if_neg h2', if_pos hlt]
      rfl
  · intro hlt
    refine ⟨?_, count_occurs _ _, fun w hw => warning_occurs _ _ w hw⟩
    unfold parseCSV
    rw [if_neg h1', if_neg h2', if_pos hlt]

/-- Witness for C3 at the concrete 49-row input. -/
theorem claim_C3_insufficient_floor_witness :
    (2 ≤ (csvLines csv49).length ∧ hasRequiredColumns (csvHeaders csv49) = true)
    ∧ (isInsufficient (parseCSV csv49) = true ↔ (rawPoints csv49).length < 50) :=
  ⟨⟨by decide, by decide⟩,
   ((claim_C3_insufficient_floor.1 csv49 (by decide) (by decide)).1)⟩

/-- Claim C4: the scan keeps every valid row and turns every failing
non-blank row into exactly one warning, in order; concretely, the 65-row
input with five non-numeric-price rows interleaved parses to exactly 60
points and 5 warnings, a row with low 10 above high 5 is skipped with the
`Invalid OHLC relationships` warning, and the same row with low 5, high
10, open 7, close 8 is accepted. -/
theorem claim_C4_row_skipping :
    (∀ hdr rows, rowScan hdr rows
        = (rows.filterMap (rowPoint hdr), rows.filterMap (rowWarning hdr)))
    ∧ resultCounts (parseCSV csv65) = some (60, 5)
    ∧ rowResult hdr5 2 (strLit "2020-01-01,7,5,10,8")
        = RowOutcome.skip (strLit "Line 3: Invalid OHLC relationships")
    ∧ rowResult hdr5 2 (strLit "2020-01-01,7,10,5,8")
        = RowOutcome.ok ⟨strLit "2020-01-01", 7, 10, 5, 8⟩ := by
  refine ⟨?_, by decide, by decide, by decide⟩
  intro hdr rows
  induction rows with
  | nil => rfl
  | cons x rest ih =>
    by_cases hb : trimC x.2 = []
    · simp only [rowScan, rowPoint, rowWarning, if_pos hb, List.filterMap_cons, ih]
    · cases hres : rowResult hdr x.1 (trimC x.2) with
      | ok p =>
        simp only [rowScan, rowPoint, rowWarning, if_neg hb, hres, List.filterMap_cons, ih]
      | skip e =>
        simp only [rowScan, rowPoint, rowWarning, if_neg hb, hres, List.filterMap_cons, ih]

/-- Claim C5: the series a successful parse returns is sorted ascending by
date, and the sort is stable: filtering to any one date key gives the
accepted rows of that key in their scan order. -/
theorem claim_C5_sorted_stable :
    (∀ csv, List.Pairwise keyLe (parsedData csv))
    ∧ ∀ csv k, (sortPoints (rawPoints csv)).filter (fun p => pointKey p == k)
        = (rawPoints csv).filter (fun p => pointKey p == k) := by
  constructor
  · intro csv
    unfold parsedData
    cases h : parseCSV csv with
    | error e => exact List.Pairwise.nil
    | ok r =>
      show List.Pairwise keyLe r.data
      rw [(parseCSV_ok_inv h).1]
      exact List.sorted_insertionSort keyLe (rawPoints csv)
  · intro csv k
    exact filter_key_sortPoints k (rawPoints csv)

/-- Claim C6: for every OHLC point and every positive scale, denormalizing
the normalization returns the point exactly (over exact arithmetic), for
both the session-scale pair and the fixed-138 pair. -/
theorem claim_C6_roundtrip (p : Ohlc) (s : ℚ) (hs : 0 < s) :
    scaleUp s (scaleDown s p) = p ∧ scaleUp138 (scaleDown138 p) = p := by
  have hs' : s ≠ 0 := ne_of_gt hs
  have h138 : (138 : ℚ) ≠ 0 := by norm_num
  cases p with
  | mk o h l c =>
    constructor
    · simp only [scaleUp, scaleDown, Ohlc.mk.injEq]
      exact ⟨div_mul_cancel₀ o hs', div_mul_cancel₀ h hs',
        div_mul_cancel₀ l hs', div_mul_cancel₀ c hs'⟩
    · simp only [scaleUp138, scaleDown138, Ohlc.mk.injEq]
      exact ⟨div_mul_cancel₀ o h138, div_mul_cancel₀ h h138,
        div_mul_cancel₀ l h138, div_mul_cancel₀ c h138⟩

/-- Witness for C6 at a concrete point and scale 138. -/
theorem claim_C6_roundtrip_witness :
    (0 : ℚ) < 138
    ∧ (scaleUp 138 (scaleDown 138 o1) = o1 ∧ scaleUp138 (scaleDown138 o1) = o1) :=
  ⟨by norm_num, claim_C6_roundtrip o1 138 (by norm_num)⟩

/-- Claim C7: one train invocation of the worker posts exactly one
terminal message — one completion carrying the denormalized prediction, or
one error carrying the failure's message — never both, never zero; an
invocation failing the initialization precondition posts the
not-initialized error and no prediction. -/
theorem claim_C7_single_outcome (netInit : Bool) (data : List Ohlc)
    (t : Except (List Char) Unit) (r : Option (List Ohlc) → Except (List Char) Ohlc) :
    (workerTrainCase netInit data t r).length = 1
    ∧ ((∃ p, workerTrainCase netInit data t r = [WorkerMsg.complete p])
        ∨ (∃ m, workerTrainCase netInit data t r = [WorkerMsg.error m]))
    ∧ (∀ p, workerTrainCase netInit data t r = [WorkerMsg.complete p] →
        netInit = true
          ∧ ∃ q, r (prepareTrainingData data).getLast? = .ok q ∧ p = scaleUp138 q)
    ∧ (netInit = false → workerTrainCase netInit data t r = [WorkerMsg.error workerNotInitMsg]) := by
  cases netInit with
  | false =>
    have hcase : workerTrainCase false data t r = [WorkerMsg.error workerNotInitMsg] := rfl
    rw [hcase]
    refine ⟨rfl, Or.inr ⟨workerNotInitMsg, rfl⟩, ?_, fun _ => rfl⟩
    intro p hp
    simp at hp
  | true =>
    cases t with
    | error m =>
      have hcase : workerTrainCase true data (Except.error m) r = [WorkerMsg.error m] := rfl
      rw [hcase]
      refine ⟨rfl, Or.inr ⟨m, rfl⟩, ?_, by simp⟩
      intro p hp
      simp at hp
    | ok u =>
      cases hr : r (prepareTrainingData data).getLast? with
      | error m =>
        have hcase : workerTrainCase true data (Except.ok u) r = [WorkerMsg.error m] := by
          simp [workerTrainCase, workerTrainBody, hr]
        rw [hcase]
        refine ⟨rfl, Or.inr ⟨m, rfl⟩, ?_, by simp⟩
        intro p hp
        simp at hp
      | ok q =>
        have hcase : workerTrainCase true data (Except.ok u) r
            = [WorkerMsg.complete (scaleUp138 q)] := by
          simp [workerTrainCase, workerTrainBody, hr]
        rw [hcase]
        refine ⟨rfl, Or.inl ⟨scaleUp138 q, rfl⟩, ?_, by simp⟩
        intro p hp
        simp only [List.cons.injEq, WorkerMsg.complete.injEq, and_true] at hp
        exact ⟨rfl, q, rfl, hp.symm⟩

/-- Witness for C7 at a concrete precondition-failing invocation. -/
theorem claim_C7_single_outcome_witness :
    workerTrainCase false [] (Except.ok ()) (fun _ => Except.error [])
      = [WorkerMsg.error workerNotInitMsg]
    ∧ (workerTrainCase false [] (Except.ok ()) (fun _ => Except.error [])).length = 1 :=
  ⟨(claim_C7_single_outcome false [] (Except.ok ()) (fun _ => Except.error [])).2.2.2 rfl,
   (claim_C7_single_outcome false [] (Except.ok ()) (fun _ => Except.error [])).1⟩

/-- Claim C8 (amended): the orchestrator fails immediately and without
transitioning to Running exactly when the predictor is uninitialized (the
not-ready alert) or the series is null (the upload-first alert); there is
no minimum-length check, so a non-null series with fewer than 5 points
passes the preconditions and locks the UI. -/
theorem claim_C8_preconditions (netInit : Bool) (series : Option (List Ohlc)) (maxPrice : ℚ)
    (t : Except (List Char) Unit) (r : Option (List Ohlc) → Except (List Char) Ohlc) :
    ((trainAndPredict netInit series maxPrice t r).locked = false
      ↔ (netInit = false ∨ series = none))
    ∧ (netInit = false →
        trainAndPredict netInit series maxPrice t r = ⟨false, .alert notInitAlert⟩)
    ∧ (netInit = true → series = none →
        trainAndPredict netInit series maxPrice t r = ⟨false, .alert uploadAlert⟩) := by
  cases netInit with
  | false => cases series <;> simp [trainAndPredict]
  | true =>
    cases series with
    | none => simp [trainAndPredict]
    | some data =>
      cases h : tapBody maxPrice data t r with
      | ok p => simp [trainAndPredict, h]
      | error m => simp [trainAndPredict, h]

/-- Witness for C8 (amended) at a concrete uninitialized state. -/
theorem claim_C8_preconditions_witness :
    trainAndPredict false none 1 (Except.ok ()) (fun _ => Except.error [])
      = ⟨false, TapOutcome.alert notInitAlert⟩
    ∧ (trainAndPredict false none 1 (Except.ok ()) (fun _ => Except.error [])).locked = false :=
  ⟨(claim_C8_preconditions false none 1 (Except.ok ()) (fun _ => Except.error [])).2.1 rfl,
   (claim_C8_preconditions false none 1 (Except.ok ()) (fun _ => Except.error [])).1.mpr
     (Or.inl rfl)⟩

/-- Claim C8 counterexample: with the net initialized and a non-null
3-point series (fewer than 5 points), the orchestrator locks the UI — it
transitions to Running — and fails inside the job with the no-sequences
message, instead of failing immediately with an insufficient-data error
before Running as the claim states. -/
theorem claim_C8_counterexample :
    (trainAndPredict true (some [o1, o1, o1]) 1 (Except.ok ())
        (fun _ => Except.error [])).locked = true
    ∧ trainAndPredict true (some [o1, o1, o1]) 1 (Except.ok ()) (fun _ => Except.error [])
        = ⟨true, TapOutcome.failure noSeqMsg⟩
    ∧ [o1, o1, o1].length < 5 :=
  ⟨by decide, by decide, by decide⟩

/-- Claim C9 (amended): the derived scale factor is the maximum over the
prices of those rows in which ALL FOUR price fields are parseable and
positive — a row with any unparsable or non-positive price field
contributes none of its values — and it is 0 (the fold's start) when no
such row exists. -/
theorem claim_C9_scale_factor (hdr : HeaderIdx) (lines : List (List Char)) :
    (∀ raw ∈ lines, (rowValidPrices hdr raw).length = 4 →
        ∀ p ∈ rowValidPrices hdr raw, p ≤ maxPriceScan hdr lines)
    ∧ (maxPriceScan hdr lines = 0
        ∨ ∃ raw, raw ∈ lines ∧ (rowValidPrices hdr raw).length = 4
            ∧ maxPriceScan hdr lines ∈ rowValidPrices hdr raw) :=
  ⟨fun raw hm h4 p hp => scanFold_ge_prices hdr lines 0 raw hm h4 p hp,
   scanFold_eq_or_mem hdr lines 0⟩

/-- Witness for C9 (amended) at a concrete header and line list. -/
theorem claim_C9_scale_factor_witness :
    (goodRow 0 ∈ [goodRow 0, c9row]
      ∧ (rowValidPrices hdr5 (goodRow 0)).length = 4
      ∧ (7 : ℚ) ∈ rowValidPrices hdr5 (goodRow 0))
    ∧ (7 : ℚ) ≤ maxPriceScan hdr5 [goodRow 0, c9row] :=
  ⟨⟨by decide, by decide, by decide⟩,
   (claim_C9_scale_factor hdr5 [goodRow 0, c9row]).1 (goodRow 0) (by decide) (by decide)
     7 (by decide)⟩

/-- Claim C9 counterexample: in the CSV whose data rows are one fully
valid row (maximum price 10) and one row with three parseable positive
prices 9999 next to a non-numeric close, the code derives scale 10 —
ignoring 9999 — while the claimed rule (every parseable positive value
contributes) yields 9999. -/
theorem claim_C9_counterexample :
    maxPriceScan (csvHdr c9csv) ((csvLines c9csv).drop 1) = 10
    ∧ specScaleFactor (csvHdr c9csv) ((csvLines c9csv).drop 1) = 9999
    ∧ (10 : ℚ) ≠ 9999 :=
  ⟨by decide, by decide, by decide⟩

/-- Claim C10 (amended): the CSV upload path installs only series of at
least 50 points, but the JSON upload path installs whatever array the
host deserializes, with no length floor. -/
theorem claim_C10_floor :
    (∀ text, (handleFileUpload (Upload.csvFile text)).elim True (fun s => 50 ≤ s.length))
    ∧ (∀ pts, handleFileUpload (Upload.jsonFile pts) = some pts) := by
  constructor
  · intro text
    cases h : parseCSV text with
    | error e =>
      have hcase : handleFileUpload (Upload.csvFile text) = none := by
        simp [handleFileUpload, h]
      rw [hcase]
      trivial
    | ok r =>
      have hcase : handleFileUpload (Upload.csvFile text) = some r.data := by
        simp [handleFileUpload, h]
      rw [hcase]
      obtain ⟨hd, hlen⟩ := parseCSV_ok_inv h
      show 50 ≤ r.data.length
      rw [hd, sortPoints_length]
      exact hlen
  · intro pts
    rfl

/-- Claim C10 counterexample: a JSON upload of a one-element array
succeeds and installs a one-element series, below the claimed 50-element
floor. -/
theorem claim_C10_counterexample :
    handleFileUpload (Upload.jsonFile [pt0]) = some [pt0] ∧ ¬ (50 ≤ [pt0].length) :=
  ⟨rfl, by decide⟩
